import Mathlib

/-!
# Verification of the LI.FI SDK execution core

A shallow embedding of the repository's status engine (`StatusManager.ts`),
the base step executor (`BaseStepExecutor.ts`), the EVM step executor's
submission checkpoint (`EVMStepExecutor.ts`), and the Permit2 message
builders, together with theorems settling the specification's claims.

JavaScript mutation is modelled by explicit state passing: each operation
takes the step (or permit) value and returns the updated value.  `Date.now()`
is modelled by an explicit `now : Nat` parameter.  Fallible operations
return `Except String`, the error string being the thrown message.  Route
propagation (`updateStepInRoute` and the two route hooks) only touches the
route and the hooks, never the step's own fields, so it is modelled as the
identity on the step state.
-/

namespace LiFi

/-- Execution / process statuses used by the analyzed surface
(from the external types package and the source's string literals). -/
inductive Status where
  | NOT_STARTED
  | STARTED
  | PENDING
  | ACTION_REQUIRED
  | PERMIT_REQUIRED
  | FAILED
  | DONE
  | CANCELLED
deriving DecidableEq, Repr

/-- Process types appearing in the analyzed surface. -/
inductive ProcessType where
  | TOKEN_ALLOWANCE
  | PERMIT
  | SWITCH_CHAIN
  | SWAP
  | CROSS_CHAIN
  | RECEIVING_CHAIN
  | TRANSACTION
deriving DecidableEq, Repr

/-- Structured error attached to a failed process: `{ code, message }`. -/
structure ProcessError where
  code : Nat
  message : String
deriving DecidableEq, Repr

/-- Name of a process type, for building human messages. -/
def processTypeName : ProcessType → String
  | .TOKEN_ALLOWANCE => "TOKEN_ALLOWANCE"
  | .PERMIT => "PERMIT"
  | .SWITCH_CHAIN => "SWITCH_CHAIN"
  | .SWAP => "SWAP"
  | .CROSS_CHAIN => "CROSS_CHAIN"
  | .RECEIVING_CHAIN => "RECEIVING_CHAIN"
  | .TRANSACTION => "TRANSACTION"

/-- Name of a status, for building human messages. -/
def statusName : Status → String
  | .NOT_STARTED => "NOT_STARTED"
  | .STARTED => "STARTED"
  | .PENDING => "PENDING"
  | .ACTION_REQUIRED => "ACTION_REQUIRED"
  | .PERMIT_REQUIRED => "PERMIT_REQUIRED"
  | .FAILED => "FAILED"
  | .DONE => "DONE"
  | .CANCELLED => "CANCELLED"

/-- Modelled from the spec: `getProcessMessage` (in `execution/utils.ts`,
not part of the analyzed surface) derives a human message from the pair
`(type, status)`. -/
def getProcessMessage (t : ProcessType) (s : Status) : String :=
  processTypeName t ++ ":" ++ statusName s

/-- A tracked sub-phase of a step's execution.  The `atomicBatchSupported`
field models the dynamic key the EVM executor merges onto a process when
submitting through an atomic batch. -/
structure Process where
  type : ProcessType
  status : Status
  startedAt : Nat
  message : String
  doneAt : Option Nat := none
  failedAt : Option Nat := none
  txHash : Option String := none
  txLink : Option String := none
  error : Option ProcessError := none
  substatus : Option String := none
  substatusMessage : Option String := none
  multisigTxHash : Option String := none
  atomicBatchSupported : Option Bool := none
deriving DecidableEq, Repr

/-- The mutable execution record of a step. -/
structure Execution where
  status : Status
  process : List Process
deriving DecidableEq, Repr

/-- Modelled from the external types package: the fresh execution value
cloned by the initializer. -/
def emptyExecution : Execution :=
  { status := .NOT_STARTED, process := [] }

/-- A step: an action specification plus its mutable execution record.
Only the fields the analyzed operations read or write are carried. -/
structure LiFiStep where
  id : String
  execution : Option Execution := none
deriving DecidableEq, Repr

/-- The optional extra parameters `updateProcess` merges onto a process
(`OptionalParameters` in the source, plus the dynamic
`atomicBatchSupported` key used by the EVM executor).  A `none` field is
an absent key. -/
structure OptionalParameters where
  doneAt : Option Nat := none
  failedAt : Option Nat := none
  txHash : Option String := none
  txLink : Option String := none
  error : Option ProcessError := none
  substatus : Option String := none
  substatusMessage : Option String := none
  multisigTxHash : Option String := none
  atomicBatchSupported : Option Bool := none
deriving DecidableEq, Repr

/-- Merge the present entries of `params` onto `p`
(`Object.entries` iteration with per-key assignment). -/
def applyParams (p : Process) (params : OptionalParameters) : Process :=
  let p := match params.doneAt with | some v => { p with doneAt := some v } | none => p
  let p := match params.failedAt with | some v => { p with failedAt := some v } | none => p
  let p := match params.txHash with | some v => { p with txHash := some v } | none => p
  let p := match params.txLink with | some v => { p with txLink := some v } | none => p
  let p := match params.error with | some v => { p with error := some v } | none => p
  let p := match params.substatus with | some v => { p with substatus := some v } | none => p
  let p := match params.substatusMessage with
    | some v => { p with substatusMessage := some v } | none => p
  let p := match params.multisigTxHash with
    | some v => { p with multisigTxHash := some v } | none => p
  match params.atomicBatchSupported with
  | some v => { p with atomicBatchSupported := some v } | none => p

/-- Apply `f` to the first process of the given type, leaving every other
entry and the order unchanged (in-place mutation of the object returned by
`Array.prototype.find`). -/
def replaceFirst (l : List Process) (t : ProcessType) (f : Process → Process) : List Process :=
  match l with
  | [] => []
  | p :: ps => if p.type = t then f p :: ps else p :: replaceFirst ps t f

/-- Embedding of `initExecutionObject` (StatusManager.ts:69-86): creates a fresh
`PENDING` execution when absent; flips a `FAILED` execution back to
`PENDING`; otherwise leaves the step alone.  Returns the updated step and
the execution value the source returns. -/
def initExecutionObject (step : LiFiStep) : LiFiStep × Execution :=
  match step.execution with
  | none =>
      let e := { emptyExecution with status := Status.PENDING }
      ({ step with execution := some e }, e)
  | some e =>
      if e.status = .FAILED then
        let e2 := { e with status := Status.PENDING }
        ({ step with execution := some e2 }, e2)
      else
        (step, e)

/-- Embedding of `findOrCreateProcess` (StatusManager.ts:117-146): look up by type;
update the status in place when an explicit status differs; otherwise
create a process with `status ?? STARTED`, `startedAt = now` and the
derived message, and push it. -/
def findOrCreateProcess (now : Nat) (step : LiFiStep) (t : ProcessType)
    (status : Option Status) : Except String (LiFiStep × Process) :=
  match step.execution with
  | none => .error "Execution has not been initialized."
  | some e =>
    match e.process.find? (fun p => p.type == t) with
    | some p =>
        match status with
        | some s =>
            if p.status ≠ s then
              let p2 := { p with status := s }
              let e2 := { e with process := replaceFirst e.process t (fun q => { q with status := s }) }
              .ok ({ step with execution := some e2 }, p2)
            else
              .ok (step, p)
        | none => .ok (step, p)
    | none =>
        let newProcess : Process :=
          { type := t
            startedAt := now
            message := getProcessMessage t (status.getD .STARTED)
            status := status.getD .STARTED }
        .ok ({ step with execution := some { e with process := e.process ++ [newProcess] } },
             newProcess)

/-- The per-status default effects of `updateProcess` on the process record
(the `switch` at StatusManager.ts:171-190 plus the unconditional status and
message assignment), followed by the merge of the caller's params. -/
def processUpdate (now : Nat) (t : ProcessType) (status : Status)
    (params : Option OptionalParameters) (p : Process) : Process :=
  let p1 :=
    match status with
    | .CANCELLED => { p with doneAt := some now }
    | .FAILED => { p with doneAt := some now }
    | .DONE => { p with doneAt := some now }
    | _ => p
  let p2 := { p1 with status := status, message := getProcessMessage t status }
  match params with
  | some ps => applyParams p2 ps
  | none => p2

/-- The effect of `updateProcess` on the execution's own status
(the `switch` at StatusManager.ts:171-190). -/
def execStatusAfter (old : Status) (status : Status) : Status :=
  match status with
  | .FAILED => .FAILED
  | .PENDING => .PENDING
  | .ACTION_REQUIRED => .ACTION_REQUIRED
  | _ => old

/-- Embedding of `updateProcess` (StatusManager.ts:156-211): fails when the execution or
the named process is absent; applies the per-status defaults, the status
and message, then the params; finally reorders the process list with the
`DONE` entries first. -/
def updateProcess (now : Nat) (step : LiFiStep) (t : ProcessType) (status : Status)
    (params : Option OptionalParameters) : Except String (LiFiStep × Process) :=
  match step.execution with
  | none => .error "Cannot update an empty step execution."
  | some e =>
    match e.process.find? (fun p => p.type == t) with
    | none => .error "Cannot find a process for the given type."
    | some p0 =>
      let p2 := processUpdate now t status params p0
      let procs := replaceFirst e.process t (processUpdate now t status params)
      let sorted :=
        procs.filter (fun p => p.status == .DONE) ++
        procs.filter (fun p => p.status != .DONE)
      let e2 : Execution := { status := execStatusAfter e.status status, process := sorted }
      .ok ({ step with execution := some e2 }, p2)

/-- JavaScript `Array.prototype.splice(index, 1)`: a negative index counts
from the end (clamped at 0). -/
def spliceRemoveOne (l : List Process) (index : Int) : List Process :=
  let start : Nat :=
    if index < 0 then (Int.toNat ((l.length : Int) + index))
    else min index.toNat l.length
  l.take start ++ l.drop (start + 1)

/-- Embedding of `removeProcess` (StatusManager.ts:218-225): `findIndex` by type (−1
when absent) followed by `splice(index, 1)`. -/
def removeProcess (step : LiFiStep) (t : ProcessType) : Except String LiFiStep :=
  match step.execution with
  | none => .error "Execution has not been initialized."
  | some e =>
    let index : Int :=
      match e.process.findIdx? (fun p => p.type == t) with
      | some i => (i : Int)
      | none => -1
    .ok { step with execution := some { e with process := spliceRemoveOne e.process index } }

/-! ## BaseStepExecutor (`BaseStepExecutor.ts`) -/

/-- The caller-facing partial interaction settings; a `none` field is an
omitted key. -/
structure InteractionSettings where
  allowInteraction : Option Bool := none
  allowUpdates : Option Bool := none
  allowExecution : Option Bool := none
deriving DecidableEq, Repr

/-- The constant defaults the partial settings are spread over. -/
structure InteractionDefaults where
  allowInteraction : Bool
  allowUpdates : Bool
  allowExecution : Bool
deriving DecidableEq, Repr

/-- Embedding of `defaultInteractionSettings` (BaseStepExecutor.ts:6-10). -/
def defaultInteractionSettings : InteractionDefaults :=
  { allowInteraction := true, allowUpdates := true, allowExecution := true }

/-- The executor state touched by `setInteraction`: the two flags on the
executor itself and the status manager's `shouldUpdate` flag (set through
`statusManager.allowUpdates`). -/
structure ExecutorState where
  allowUserInteraction : Bool
  allowExecution : Bool
  shouldUpdate : Bool
deriving DecidableEq, Repr

/-- Embedding of `setInteraction` (BaseStepExecutor.ts:35-43): spread the optional
partial settings over the defaults, then assign the three flags. -/
def setInteraction (st : ExecutorState) (settings : Option InteractionSettings) :
    ExecutorState :=
  let s := settings.getD {}
  let merged : InteractionDefaults :=
    { allowInteraction := s.allowInteraction.getD defaultInteractionSettings.allowInteraction
      allowUpdates := s.allowUpdates.getD defaultInteractionSettings.allowUpdates
      allowExecution := s.allowExecution.getD defaultInteractionSettings.allowExecution }
  { st with
      allowUserInteraction := merged.allowInteraction
      shouldUpdate := merged.allowUpdates
      allowExecution := merged.allowExecution }

end LiFi

namespace Permit2

/-! ## Permit Message Builder (Permit2 `signatureTransfer` module)

The permit objects are `bigint`-valued, modelled with `Int`.  The dynamic
`witness` key `Object.assign` adds to a permit is modelled as an `Option`
field that starts out `none`; the opaque `witness: any` payload is carried
as an uninterpreted `String`.  Mutation of the caller's permit is modelled
by returning the permit's final state alongside the built data. -/

/-- A single name/type pair of an EIP-712 type definition. -/
structure TypedDataField where
  name : String
  type : String
deriving DecidableEq, Repr

/-- An EIP-712 type set (`Record<string, field[]>`), as an ordered list of
entries with JavaScript object-key semantics: inserting an existing key
overwrites its value in place, a new key is appended. -/
abbrev TypedData := List (String × List TypedDataField)

/-- JavaScript object-literal key insertion. -/
def recordInsert (r : TypedData) (k : String) (v : List TypedDataField) : TypedData :=
  if (List.any r (fun kv => kv.1 == k)) then
    List.map (fun kv => if kv.1 == k then (k, v) else kv) r
  else
    r ++ [(k, v)]

/-- Spread one record onto another (`{...r, ...s}`). -/
def recordMerge (r s : TypedData) : TypedData :=
  List.foldl (fun acc kv => recordInsert acc kv.1 kv.2) r s

/-- The `TokenPermissions` record: a token address with a permitted amount. -/
structure TokenPermissions where
  token : String
  amount : Int
deriving DecidableEq, Repr

/-- The `PermitTransferFrom` record (single-token permit).  The `witness` field is the
dynamic key added by `Object.assign` when a witness is folded in. -/
structure PermitTransferFrom where
  permitted : TokenPermissions
  spender : String
  nonce : Int
  deadline : Int
  witness : Option String := none
deriving DecidableEq, Repr

/-- The `PermitBatchTransferFrom` record (batched-token permit). -/
structure PermitBatchTransferFrom where
  permitted : List TokenPermissions
  spender : String
  nonce : Int
  deadline : Int
  witness : Option String := none
deriving DecidableEq, Repr

/-- A witness extension: opaque payload, its type name, and its type set. -/
structure Witness where
  witness : String
  witnessTypeName : String
  witnessType : TypedData
deriving DecidableEq, Repr

/-- The EIP-712 domain. -/
structure TypedDataDomain where
  name : String
  chainId : Nat
  verifyingContract : String
deriving DecidableEq, Repr

/-- Modelled from the spec: `permit2Domain` (domain module, not part of the
analyzed surface) builds the EIP-712 domain for the target verifying
contract and chain. -/
def permit2Domain (permit2Address : String) (chainId : Nat) : TypedDataDomain :=
  { name := "Permit2", chainId := chainId, verifyingContract := permit2Address }

/-- Modelled from the spec: the maximum signature deadline horizon
(constants module, not part of the analyzed surface; a fixed constant). -/
def MaxSigDeadline : Int := 2 ^ 256 - 1

/-- Modelled from the spec: the maximum unordered nonce (constants module,
not part of the analyzed surface; a fixed constant). -/
def MaxUnorderedNonce : Int := 2 ^ 256 - 1

/-- Modelled from the spec: the maximum signature-transfer amount
(constants module, not part of the analyzed surface; a fixed constant). -/
def MaxSignatureTransferAmount : Int := 2 ^ 256 - 1

/-- Modelled from the spec: `invariant(condition, message)` (utils module,
not part of the analyzed surface) throws the named validation error when
the condition fails. -/
def invariant (condition : Bool) (message : String) : Except String Unit :=
  if condition then .ok () else .error message

/-- The `TOKEN_PERMISSIONS` type fields. -/
def TOKEN_PERMISSIONS : List TypedDataField :=
  [{ name := "token", type := "address" }, { name := "amount", type := "uint256" }]

/-- The four shared field entries of a (batch) transfer permit; `permType`
is "TokenPermissions" or "TokenPermissions[]". -/
def transferFields (permType : String) : List TypedDataField :=
  [{ name := "permitted", type := permType },
   { name := "spender", type := "address" },
   { name := "nonce", type := "uint256" },
   { name := "deadline", type := "uint256" }]

/-- The constant `PERMIT_TRANSFER_FROM_TYPES`. -/
def PERMIT_TRANSFER_FROM_TYPES : TypedData :=
  [("TokenPermissions", TOKEN_PERMISSIONS),
   ("PermitTransferFrom", transferFields "TokenPermissions")]

/-- The constant `PERMIT_BATCH_TRANSFER_FROM_TYPES`. -/
def PERMIT_BATCH_TRANSFER_FROM_TYPES : TypedData :=
  [("TokenPermissions", TOKEN_PERMISSIONS),
   ("PermitBatchTransferFrom", transferFields "TokenPermissions[]")]

/-- Embedding of `validateTokenPermissions`: every permitted amount must be within the
maximum signature-transfer amount. -/
def validateTokenPermissions (permissions : TokenPermissions) : Except String Unit :=
  invariant (MaxSignatureTransferAmount ≥ permissions.amount) "AMOUNT_OUT_OF_RANGE"

/-- The data built for a single-token permit: domain, type set, and the
values object (which aliases the caller's permit). -/
structure PermitTransferFromData where
  domain : TypedDataDomain
  types : TypedData
  values : PermitTransferFrom
deriving DecidableEq, Repr

/-- The data built for a batched-token permit. -/
structure PermitBatchTransferFromData where
  domain : TypedDataDomain
  types : TypedData
  values : PermitBatchTransferFrom
deriving DecidableEq, Repr

/-- Embedding of `getPermitTransferData`: validates ranges, builds domain and type set,
and (with a witness) extends the caller's permit in place via
`Object.assign(permit, { witness })`.  The second component of the result
is the caller's permit after the call. -/
def getPermitTransferData (permit : PermitTransferFrom) (permit2Address : String)
    (chainId : Nat) (witness : Option Witness) :
    Except String (PermitTransferFromData × PermitTransferFrom) := do
  (invariant (MaxSigDeadline ≥ permit.deadline) "SIG_DEADLINE_OUT_OF_RANGE")
  (invariant (MaxUnorderedNonce ≥ permit.nonce) "NONCE_OUT_OF_RANGE")
  let domain := permit2Domain permit2Address chainId
  (validateTokenPermissions permit.permitted)
  let types :=
    match witness with
    | some w =>
        recordInsert (recordMerge [("TokenPermissions", TOKEN_PERMISSIONS)] w.witnessType)
          "PermitWitnessTransferFrom"
          (transferFields "TokenPermissions" ++
            [{ name := "witness", type := w.witnessTypeName }])
    | none => PERMIT_TRANSFER_FROM_TYPES
  let values :=
    match witness with
    | some w => { permit with witness := some w.witness }
    | none => permit
  .ok ({ domain := domain, types := types, values := values }, values)

/-- Embedding of `getPermitBatchTransferData`: the batched counterpart; each permitted
amount is validated in order. -/
def getPermitBatchTransferData (permit : PermitBatchTransferFrom) (permit2Address : String)
    (chainId : Nat) (witness : Option Witness) :
    Except String (PermitBatchTransferFromData × PermitBatchTransferFrom) := do
  (invariant (MaxSigDeadline ≥ permit.deadline) "SIG_DEADLINE_OUT_OF_RANGE")
  (invariant (MaxUnorderedNonce ≥ permit.nonce) "NONCE_OUT_OF_RANGE")
  let domain := permit2Domain permit2Address chainId
  (permit.permitted.forM validateTokenPermissions)
  let types :=
    match witness with
    | some w =>
        recordInsert (recordInsert (recordMerge [] w.witnessType)
            "TokenPermissions" TOKEN_PERMISSIONS)
          "PermitBatchWitnessTransferFrom"
          (transferFields "TokenPermissions[]" ++
            [{ name := "witness", type := w.witnessTypeName }])
    | none => PERMIT_BATCH_TRANSFER_FROM_TYPES
  let values :=
    match witness with
    | some w => { permit with witness := some w.witness }
    | none => permit
  .ok ({ domain := domain, types := types, values := values }, values)

/-- The union `PermitTransferFrom | PermitBatchTransferFrom`, discriminated
by `Array.isArray(permit.permitted)`. -/
inductive PermitInput where
  | single (p : PermitTransferFrom)
  | batch (p : PermitBatchTransferFrom)
deriving DecidableEq, Repr

/-- Embedding of `isPermitTransferFrom`: the union member whose `permitted` is not an
array. -/
def isPermitTransferFrom : PermitInput → Bool
  | .single _ => true
  | .batch _ => false

/-- The built permit data for either union member. -/
inductive PermitData where
  | single (d : PermitTransferFromData)
  | batch (d : PermitBatchTransferFromData)
deriving DecidableEq, Repr

/-- The caller's permit after a call, for either union member. -/
inductive PermitAfter where
  | single (p : PermitTransferFrom)
  | batch (p : PermitBatchTransferFrom)
deriving DecidableEq, Repr

/-- Embedding of `getPermitData`: dispatch on the union member. -/
def getPermitData (permit : PermitInput) (permit2Address : String) (chainId : Nat)
    (witness : Option Witness) : Except String (PermitData × PermitAfter) :=
  match permit with
  | .single p => do
      let (d, p2) ← getPermitTransferData p permit2Address chainId witness
      .ok (.single d, .single p2)
  | .batch p => do
      let (d, p2) ← getPermitBatchTransferData p permit2Address chainId witness
      .ok (.batch d, .batch p2)

/-- The message passed to the off-the-shelf typed-data hashing primitive. -/
inductive PermitMessage where
  | single (p : PermitTransferFrom)
  | batch (p : PermitBatchTransferFrom)
deriving DecidableEq, Repr

/-- The full input handed to `hashTypedData`. -/
structure HashInput where
  domain : TypedDataDomain
  types : TypedData
  primaryType : String
  message : PermitMessage
deriving DecidableEq, Repr

/-- Modelled from the spec: the EIP-712 typed-data hashing primitive
(`hashTypedData` from the external library) is out of scope and assumed
correct; it is modelled as the identity on its input so theorems can speak
about the domain, type set, primary type and message it receives. -/
def hashTypedData (input : HashInput) : HashInput := input

/-- Embedding of `hash`: builds the permit data, selects the primary type from
(single vs. batch, witness vs. none), and hands everything to the hashing
primitive.  The second component is the caller's permit after the call. -/
def hash (permit : PermitInput) (permit2Address : String) (chainId : Nat)
    (witness : Option Witness) : Except String (HashInput × PermitAfter) :=
  match permit with
  | .single p => do
      let (d, p2) ← getPermitTransferData p permit2Address chainId witness
      let primaryType :=
        match witness with
        | some _ => "PermitWitnessTransferFrom"
        | none => "PermitTransferFrom"
      .ok (hashTypedData
            { domain := d.domain, types := d.types, primaryType := primaryType
              message := .single d.values }, .single p2)
  | .batch p => do
      let (d, p2) ← getPermitBatchTransferData p permit2Address chainId witness
      let primaryType :=
        match witness with
        | some _ => "PermitBatchWitnessTransferFrom"
        | none => "PermitBatchTransferFrom"
      .ok (hashTypedData
            { domain := d.domain, types := d.types, primaryType := primaryType
              message := .batch d.values }, .batch p2)

/-- The deadline of either union member. -/
def permitDeadline : PermitInput → Int
  | .single p => p.deadline
  | .batch p => p.deadline

/-- The nonce of either union member. -/
def permitNonce : PermitInput → Int
  | .single p => p.nonce
  | .batch p => p.nonce

/-- The permitted amounts of either union member, in validation order. -/
def permitAmounts : PermitInput → List Int
  | .single p => [p.permitted.amount]
  | .batch p => p.permitted.map TokenPermissions.amount

end Permit2

namespace LiFi

/-! ## EVM step executor: the pre-submission checkpoint and submission
block (`EVMStepExecutor.ts:338-443`)

External collaborators (wallet signing, gas estimation, submission
channels, the relayer) are modelled by an oracle supplying their results,
and each submission is recorded as an effect; the step state is threaded
through the already-embedded status-engine operations. -/

/-- The chain configuration fields this block reads. -/
structure ChainInfo where
  id : Nat
  permit2Proxy : Option String := none
  blockExplorerUrl : String
deriving DecidableEq, Repr

/-- A call queued for atomic-batch submission. -/
structure Call where
  chainId : Option Nat := none
  toAddress : Option String := none
  data : Option String := none
  value : Option Int := none
deriving DecidableEq, Repr

/-- The assembled transaction parameters. -/
structure TransactionParameters where
  toAddress : Option String := none
  fromAddress : Option String := none
  data : Option String := none
  value : Option Int := none
  gas : Option Nat := none
  gasPrice : Option Nat := none
  maxFeePerGas : Option Nat := none
  maxPriorityFeePerGas : Option Nat := none
deriving DecidableEq, Repr

/-- The result of `signPermitMessage`: redirected call data plus the
signature. -/
structure PermitSig where
  data : String
  signature : String
deriving DecidableEq, Repr

/-- Results of the external collaborators consulted after the checkpoint:
the permit signature, the gas re-estimate (`none` models the caught
estimation failure, which leaves the gas to the wallet), and the handles
returned by the three submission channels. -/
structure SubmissionOracle where
  permitSignature : PermitSig
  estimateGasResult : Option Nat := none
  sendCallsHash : String
  sendTransactionHash : String
  relayTaskId : String
deriving DecidableEq, Repr

/-- A transaction submission performed by the block. -/
inductive SubmissionEffect where
  | sendCalls (calls : List Call)
  | relayTransaction (signature : String) (callData : String)
  | sendTransaction (tr : TransactionParameters)
deriving DecidableEq, Repr

/-- How the block ended: paused at the checkpoint, or submitted with a
transaction hash / batch id / relay task id. -/
inductive SubmitOutcome where
  | paused (step : LiFiStep)
  | submitted (step : LiFiStep) (txHash : String)
deriving DecidableEq, Repr

/-- The submission block of `executeStep` (EVMStepExecutor.ts:338-443):
mark the process `PERMIT_REQUIRED`/`ACTION_REQUIRED`, stop at the
pre-submission checkpoint when user interaction is disallowed, otherwise
submit through exactly one channel (atomic batch, permit-signed relayed or
direct, or plain) and mark the process `PENDING` with the submission
handle. -/
def submissionPhase (now : Nat) (allowUserInteraction : Bool)
    (atomicBatchSupported : Bool) (isPermitStep : Bool) (permitSupported : Bool)
    (fromChain : ChainInfo) (step : LiFiStep) (processType : ProcessType)
    (tr : TransactionParameters) (calls : List Call) (oracle : SubmissionOracle) :
    Except String (SubmitOutcome × List SubmissionEffect) := do
  let (step, _) ← updateProcess now step processType
    (if permitSupported then .PERMIT_REQUIRED else .ACTION_REQUIRED) none
  if !allowUserInteraction then
    return (.paused step, [])
  else if atomicBatchSupported then
    let transferCall : Call :=
      { chainId := some fromChain.id, data := tr.data, toAddress := tr.toAddress, value := tr.value }
    let calls := calls ++ [transferCall]
    let txHash := oracle.sendCallsHash
    let (step, _) ← updateProcess now step processType .PENDING
      (some { atomicBatchSupported := some true })
    return (.submitted step txHash, [.sendCalls calls])
  else if permitSupported then
    let tr := { tr with
                  toAddress := fromChain.permit2Proxy
                  data := some oracle.permitSignature.data
                  gas := oracle.estimateGasResult }
    let (step, _) ← updateProcess now step processType .ACTION_REQUIRED none
    if isPermitStep then
      let txHash := oracle.relayTaskId
      let (step, _) ← updateProcess now step processType .PENDING
        (some { txHash := some txHash
                txLink := some (fromChain.blockExplorerUrl ++ "tx/" ++ txHash) })
      return (.submitted step txHash,
              [.relayTransaction oracle.permitSignature.signature oracle.permitSignature.data])
    else
      let txHash := oracle.sendTransactionHash
      let (step, _) ← updateProcess now step processType .PENDING
        (some { txHash := some txHash
                txLink := some (fromChain.blockExplorerUrl ++ "tx/" ++ txHash) })
      return (.submitted step txHash, [.sendTransaction tr])
  else
    let txHash := oracle.sendTransactionHash
    let (step, _) ← updateProcess now step processType .PENDING
      (some { txHash := some txHash
              txLink := some (fromChain.blockExplorerUrl ++ "tx/" ++ txHash) })
    return (.submitted step txHash, [.sendTransaction tr])

end LiFi

namespace LiFi

/-! ## Helper lemmas -/

/-- The params merge never touches the process's status. -/
theorem applyParams_status (p : Process) (ps : OptionalParameters) :
    (applyParams p ps).status = p.status := by
  obtain ⟨d, f, th, tl, er, ss, sm, mh, ab⟩ := ps
  cases d <;> cases f <;> cases th <;> cases tl <;> cases er <;> cases ss <;>
    cases sm <;> cases mh <;> cases ab <;> rfl

/-- The params merge never touches the process's type. -/
theorem applyParams_type (p : Process) (ps : OptionalParameters) :
    (applyParams p ps).type = p.type := by
  obtain ⟨d, f, th, tl, er, ss, sm, mh, ab⟩ := ps
  cases d <;> cases f <;> cases th <;> cases tl <;> cases er <;> cases ss <;>
    cases sm <;> cases mh <;> cases ab <;> rfl

/-- The merged doneAt: the caller's value when present, else the prior one. -/
theorem applyParams_doneAt (p : Process) (ps : OptionalParameters) :
    (applyParams p ps).doneAt = ps.doneAt.or p.doneAt := by
  obtain ⟨d, f, th, tl, er, ss, sm, mh, ab⟩ := ps
  cases d <;> cases f <;> cases th <;> cases tl <;> cases er <;> cases ss <;>
    cases sm <;> cases mh <;> cases ab <;> rfl

/-- The merged txHash: the caller's value when present, else the prior one. -/
theorem applyParams_txHash (p : Process) (ps : OptionalParameters) :
    (applyParams p ps).txHash = ps.txHash.or p.txHash := by
  obtain ⟨d, f, th, tl, er, ss, sm, mh, ab⟩ := ps
  cases d <;> cases f <;> cases th <;> cases tl <;> cases er <;> cases ss <;>
    cases sm <;> cases mh <;> cases ab <;> rfl

/-- The merged error: the caller's value when present, else the prior one. -/
theorem applyParams_error (p : Process) (ps : OptionalParameters) :
    (applyParams p ps).error = ps.error.or p.error := by
  obtain ⟨d, f, th, tl, er, ss, sm, mh, ab⟩ := ps
  cases d <;> cases f <;> cases th <;> cases tl <;> cases er <;> cases ss <;>
    cases sm <;> cases mh <;> cases ab <;> rfl

/-- Lemma: `processUpdate` always sets the status to the given status. -/
theorem processUpdate_status (now : Nat) (t : ProcessType) (s : Status)
    (params : Option OptionalParameters) (p : Process) :
    (processUpdate now t s params p).status = s := by
  cases params with
  | none => cases s <;> rfl
  | some ps =>
      cases s <;> simp [processUpdate, applyParams_status]

/-- Lemma: `processUpdate` never changes the process type. -/
theorem processUpdate_type (now : Nat) (t : ProcessType) (s : Status)
    (params : Option OptionalParameters) (p : Process) :
    (processUpdate now t s params p).type = p.type := by
  cases params with
  | none => cases s <;> rfl
  | some ps =>
      cases s <;> simp [processUpdate, applyParams_type]

/-- Lemma: `replaceFirst` with a type-preserving function preserves the sequence
of process types. -/
theorem replaceFirst_map_type (l : List Process) (t : ProcessType)
    (f : Process → Process) (hf : ∀ p, (f p).type = p.type) :
    (replaceFirst l t f).map Process.type = l.map Process.type := by
  induction l with
  | nil => rfl
  | cons p ps ih =>
      by_cases h : p.type = t
      · simp [replaceFirst, h, hf]
      · simp [replaceFirst, h, ih]

end LiFi

namespace LiFi

/-! ## Claim C10: interaction settings merge over constant defaults -/

/-- C10: `setInteraction` merges the given partial settings over the
constant defaults `{allowInteraction: true, allowUpdates: true,
allowExecution: true}`: each omitted flag is reset to `true` regardless of
its previous value, and calling with no argument re-enables interaction,
updates, and execution all at once. -/
theorem setInteraction_merges_defaults (st : ExecutorState)
    (settings : InteractionSettings) :
    (setInteraction st (some settings)).allowUserInteraction
        = settings.allowInteraction.getD true ∧
    (setInteraction st (some settings)).shouldUpdate
        = settings.allowUpdates.getD true ∧
    (setInteraction st (some settings)).allowExecution
        = settings.allowExecution.getD true ∧
    setInteraction st none =
      { allowUserInteraction := true, allowExecution := true, shouldUpdate := true } := by
  refine ⟨rfl, rfl, rfl, rfl⟩

/-! ## Claim C5: the initializer resumes a FAILED execution -/

/-- C5: for a step whose execution status is `FAILED`,
`initExecutionObject` sets the status to `PENDING` and leaves every other
field of the execution — in particular the process list, in order, with
all fields — untouched. -/
theorem initExecutionObject_resumes_failed (step : LiFiStep) (e : Execution)
    (h1 : step.execution = some e) (h2 : e.status = .FAILED) :
    (initExecutionObject step).1.execution = some { e with status := Status.PENDING } ∧
    (initExecutionObject step).2 = { e with status := Status.PENDING } := by
  simp [initExecutionObject, h1, h2]

/-- Concrete step exercising the C5 resume path. -/
def stepC5 : LiFiStep :=
  { id := "step-5"
    execution := some
      { status := .FAILED
        process := [{ type := .SWAP, status := .FAILED, startedAt := 3, message := "m" }] } }

/-- Witness for C5 at a concrete failed step. -/
theorem initExecutionObject_resumes_failed_witness :
    (initExecutionObject stepC5).1.execution = some
      { status := Status.PENDING
        process := [{ type := .SWAP, status := .FAILED, startedAt := 3, message := "m" }] } :=
  (initExecutionObject_resumes_failed stepC5
    { status := .FAILED
      process := [{ type := .SWAP, status := .FAILED, startedAt := 3, message := "m" }] }
    rfl rfl).1

/-! ## Claim C1: removeProcess on a missing type -/

/-- Concrete step with one `SWAP` process, for the C1 failing input. -/
def stepC1 : LiFiStep :=
  { id := "step-1"
    execution := some
      { status := .PENDING
        process := [{ type := .SWAP, status := .STARTED, startedAt := 0, message := "m" }] } }

/-- C1 (failing input): on a step holding one `SWAP` process,
`removeProcess(step, CROSS_CHAIN)` — a type with no process — does not
leave the list unchanged: `findIndex` yields −1 and `splice(-1, 1)`
removes the last process, so the `SWAP` process is deleted. -/
theorem removeProcess_missing_type_removes_last :
    removeProcess stepC1 .CROSS_CHAIN =
      .ok { id := "step-1", execution := some { status := .PENDING, process := [] } } := by
  rfl

/-! ## Claim C2: terminal statuses are not protected -/

/-- Concrete step with a `DONE` swap process, for the C2 counterexample. -/
def stepC2 : LiFiStep :=
  { id := "step-2"
    execution := some
      { status := .DONE
        process := [{ type := .SWAP, status := .DONE, startedAt := 0, message := "m" }] } }

/-- C2 (counterexample): the `SWAP` process is `DONE` (terminal), yet
`updateProcess(step, SWAP, PENDING)` — not the resume path — changes its
status to `PENDING`. -/
theorem updateProcess_overwrites_done_status_cex :
    stepC2.execution = some
      { status := .DONE
        process := [{ type := .SWAP, status := .DONE, startedAt := 0, message := "m" }] } ∧
    (updateProcess 7 stepC2 .SWAP .PENDING none).map (fun r => r.2.status)
      = .ok Status.PENDING := by
  exact ⟨rfl, rfl⟩

/-- C2 (amended): the engine does not guard terminal statuses.  Whenever
the named process exists, `updateProcess` overwrites its status with the
given value regardless of the prior status (terminal or not), and
`findOrCreateProcess` with an explicit differing status likewise
overwrites it; only `findOrCreateProcess` without an explicit status (or
with an equal one) leaves the process and the step unchanged. -/
theorem status_mutating_calls_overwrite_status (now : Nat) (step : LiFiStep)
    (e : Execution) (t : ProcessType) (p0 : Process)
    (h1 : step.execution = some e)
    (h2 : e.process.find? (fun p => p.type == t) = some p0) :
    (∀ status params, ∃ r, updateProcess now step t status params = .ok r ∧
        r.2.status = status) ∧
    findOrCreateProcess now step t none = .ok (step, p0) ∧
    (∀ s, p0.status ≠ s → ∃ r, findOrCreateProcess now step t (some s) = .ok r ∧
        r.2.status = s) := by
  refine ⟨?_, ?_, ?_⟩
  · intro status params
    simp only [updateProcess, h1, h2]
    exact ⟨_, rfl, processUpdate_status now t status params p0⟩
  · simp only [findOrCreateProcess, h1, h2]
  · intro s hs
    simp only [findOrCreateProcess, h1, h2, hs, if_pos, ne_eq, not_false_iff]
    exact ⟨_, rfl, rfl⟩

/-- Witness for the amended C2 at a concrete step: a `DONE` process is
overwritten to `FAILED` by `updateProcess`, and left alone by
`findOrCreateProcess` without an explicit status. -/
theorem status_mutating_calls_overwrite_status_witness :
    (∃ r, updateProcess 9 stepC2 .SWAP .FAILED none = .ok r ∧ r.2.status = .FAILED) ∧
    findOrCreateProcess 9 stepC2 .SWAP none =
      .ok (stepC2, { type := .SWAP, status := .DONE, startedAt := 0, message := "m" }) := by
  have h := status_mutating_calls_overwrite_status 9 stepC2
    { status := .DONE
      process := [{ type := .SWAP, status := .DONE, startedAt := 0, message := "m" }] }
    .SWAP { type := .SWAP, status := .DONE, startedAt := 0, message := "m" } rfl rfl
  exact ⟨h.1 .FAILED none, h.2.1⟩

end LiFi

namespace LiFi

/-! ## Claim C6: status-specific effects of updateProcess -/

/-- Present caller values win over a default. -/
theorem option_or_some (o : Option Nat) (n : Nat) : o.or (some n) = some (o.getD n) := by
  cases o <;> rfl

/-- On a terminal status, `processUpdate` stamps `doneAt = now` unless the
caller supplied a `doneAt` of their own. -/
theorem processUpdate_doneAt_terminal (now : Nat) (t : ProcessType) (s : Status)
    (params : Option OptionalParameters) (p : Process)
    (hs : s = .CANCELLED ∨ s = .DONE ∨ s = .FAILED) :
    (processUpdate now t s params p).doneAt = some (((params.getD {}).doneAt).getD now) := by
  rcases hs with h | h | h <;> subst h <;>
    cases params with
    | none => rfl
    | some ps =>
        simp only [processUpdate, applyParams_doneAt, Option.getD_some]
        exact option_or_some ps.doneAt now

/-- Lemma: `processUpdate` leaves `txHash` alone except for the caller's merge. -/
theorem processUpdate_txHash (now : Nat) (t : ProcessType) (s : Status)
    (params : Option OptionalParameters) (p : Process) :
    (processUpdate now t s params p).txHash = ((params.getD {}).txHash).or p.txHash := by
  cases params with
  | none => cases s <;> rfl
  | some ps => cases s <;> simp [processUpdate, applyParams_txHash]

/-- Lemma: `processUpdate` leaves `error` alone except for the caller's merge. -/
theorem processUpdate_error (now : Nat) (t : ProcessType) (s : Status)
    (params : Option OptionalParameters) (p : Process) :
    (processUpdate now t s params p).error = ((params.getD {}).error).or p.error := by
  cases params with
  | none => cases s <;> rfl
  | some ps => cases s <;> simp [processUpdate, applyParams_error]

/-- C6: on a step with an initialized execution holding a process of the
given type, `updateProcess` applies the status-specific effects —
`CANCELLED`/`DONE` stamp `doneAt`, `FAILED` stamps `doneAt` and sets the
execution status to `FAILED`, `PENDING`/`ACTION_REQUIRED` propagate onto
the execution status — and the optional params are merged after those
defaults, so caller-supplied fields (`doneAt`, `txHash`, `error`, …)
override them. -/
theorem updateProcess_status_effects (now : Nat) (step : LiFiStep) (e : Execution)
    (t : ProcessType) (p0 : Process) (status : Status)
    (params : Option OptionalParameters)
    (h1 : step.execution = some e)
    (h2 : e.process.find? (fun p => p.type == t) = some p0) :
    ∃ step2 e2 p2,
      updateProcess now step t status params = .ok (step2, p2) ∧
      step2.execution = some e2 ∧
      ((status = .CANCELLED ∨ status = .DONE ∨ status = .FAILED) →
        p2.doneAt = some (((params.getD {}).doneAt).getD now)) ∧
      (status = .FAILED → e2.status = .FAILED) ∧
      (status = .PENDING → e2.status = .PENDING) ∧
      (status = .ACTION_REQUIRED → e2.status = .ACTION_REQUIRED) ∧
      p2.status = status ∧
      p2.txHash = ((params.getD {}).txHash).or p0.txHash ∧
      p2.error = ((params.getD {}).error).or p0.error := by
  simp only [updateProcess, h1, h2]
  refine ⟨_, _, _, rfl, rfl, ?_, ?_, ?_, ?_, ?_, ?_, ?_⟩
  · exact fun hs => processUpdate_doneAt_terminal now t status params p0 hs
  · intro h; subst h; rfl
  · intro h; subst h; rfl
  · intro h; subst h; rfl
  · exact processUpdate_status now t status params p0
  · exact processUpdate_txHash now t status params p0
  · exact processUpdate_error now t status params p0

/-- Concrete step for the C6 witness. -/
def stepC6 : LiFiStep :=
  { id := "step-6"
    execution := some
      { status := .PENDING
        process := [{ type := .CROSS_CHAIN, status := .PENDING, startedAt := 1,
                      message := "m", txHash := some "0xold" }] } }

/-- Witness for C6: a `FAILED` update with a caller-supplied `doneAt`
stamps the caller's value (override), sets the execution status to
`FAILED`, and keeps the prior `txHash`. -/
theorem updateProcess_status_effects_witness :
    ∃ step2 e2 p2,
      updateProcess 42 stepC6 .CROSS_CHAIN .FAILED
          (some { doneAt := some 99 }) = .ok (step2, p2) ∧
      step2.execution = some e2 ∧
      (Status.FAILED = .CANCELLED ∨ Status.FAILED = .DONE ∨ Status.FAILED = .FAILED →
        p2.doneAt = some 99) ∧
      (Status.FAILED = .FAILED → e2.status = .FAILED) ∧
      p2.txHash = some "0xold" := by
  obtain ⟨step2, e2, p2, hok, he, hdone, hfail, _, _, _, htx, _⟩ :=
    updateProcess_status_effects 42 stepC6
      { status := .PENDING
        process := [{ type := .CROSS_CHAIN, status := .PENDING, startedAt := 1,
                      message := "m", txHash := some "0xold" }] }
      .CROSS_CHAIN
      { type := .CROSS_CHAIN, status := .PENDING, startedAt := 1,
        message := "m", txHash := some "0xold" }
      .FAILED (some { doneAt := some 99 }) rfl rfl
  exact ⟨step2, e2, p2, hok, he, fun _ => hdone (Or.inr (Or.inr rfl)), fun _ => hfail rfl, htx⟩

end LiFi

namespace LiFi

/-! ## Claim C7: DONE processes occupy a stable prefix -/

/-- C7: after a successful `updateProcess`, the `DONE` processes occupy a
prefix of the step's process list, and the list is a stable two-way
partition of the pre-call list with the in-place field update applied
(`replaceFirst … (processUpdate …)`): the same entries, with the relative
order preserved among the `DONE` entries and among the non-`DONE`
entries. -/
theorem updateProcess_done_processes_first (now : Nat) (step step2 : LiFiStep)
    (e e2 : Execution) (t : ProcessType) (status : Status)
    (params : Option OptionalParameters) (p2 : Process)
    (h1 : step.execution = some e)
    (hok : updateProcess now step t status params = .ok (step2, p2))
    (h2 : step2.execution = some e2) :
    (∃ n, (∀ q ∈ e2.process.take n, q.status = .DONE) ∧
          (∀ q ∈ e2.process.drop n, q.status ≠ .DONE)) ∧
    List.Perm e2.process (replaceFirst e.process t (processUpdate now t status params)) ∧
    e2.process.filter (fun q => q.status == .DONE)
      = (replaceFirst e.process t (processUpdate now t status params)).filter
          (fun q => q.status == .DONE) ∧
    e2.process.filter (fun q => q.status != .DONE)
      = (replaceFirst e.process t (processUpdate now t status params)).filter
          (fun q => q.status != .DONE) := by
  simp only [updateProcess, h1] at hok
  cases hfind : e.process.find? (fun p => p.type == t) with
  | none => rw [hfind] at hok; exact absurd hok (by simp)
  | some p0 =>
      rw [hfind] at hok
      simp only [Except.ok.injEq, Prod.mk.injEq] at hok
      obtain ⟨hstep2, -⟩ := hok
      rw [← hstep2] at h2
      simp only [Option.some.injEq] at h2
      set M := replaceFirst e.process t (processUpdate now t status params) with hM
      have he2 : e2.process =
          M.filter (fun q => q.status == .DONE) ++ M.filter (fun q => q.status != .DONE) := by
        rw [← h2]
      have hA : ∀ q ∈ M.filter (fun q => q.status == .DONE), q.status = .DONE := by
        intro q hq
        have := List.of_mem_filter hq
        simpa using this
      have hB : ∀ q ∈ M.filter (fun q => q.status != .DONE), q.status ≠ .DONE := by
        intro q hq
        have := List.of_mem_filter hq
        simpa using this
      refine ⟨?_, ?_, ?_, ?_⟩
      · refine ⟨(M.filter (fun q => q.status == .DONE)).length, ?_, ?_⟩
        · intro q hq
          rw [he2, List.take_left] at hq
          exact hA q hq
        · intro q hq
          rw [he2, List.drop_left] at hq
          exact hB q hq
      · rw [he2]
        exact List.filter_append_perm (fun q => q.status == .DONE) M
      · rw [he2, List.filter_append]
        simp [List.filter_filter, bne]
      · rw [he2, List.filter_append]
        simp [List.filter_filter, bne]

/-- Concrete processes for the C7 witness: a pending allowance before a
swap that the update flips to `DONE`, which then moves to the front. -/
def procC7a : Process :=
  { type := .TOKEN_ALLOWANCE, status := .PENDING, startedAt := 1, message := "a" }

/-- The swap process before the C7 witness update. -/
def procC7b : Process :=
  { type := .SWAP, status := .PENDING, startedAt := 2, message := "b" }

/-- The C7 witness step. -/
def stepC7 : LiFiStep :=
  { id := "step-7"
    execution := some { status := .PENDING, process := [procC7a, procC7b] } }

/-- The swap process after the C7 witness update. -/
def procC7b2 : Process :=
  { type := .SWAP, status := .DONE, startedAt := 2,
    message := getProcessMessage .SWAP .DONE, doneAt := some 5 }

/-- The execution after the C7 witness update: the `DONE` swap first. -/
def e2C7 : Execution :=
  { status := .PENDING, process := [procC7b2, procC7a] }

/-- The step after the C7 witness update. -/
def step2C7 : LiFiStep :=
  { id := "step-7", execution := some e2C7 }

/-- Witness for C7 at a concrete step and update. -/
theorem updateProcess_done_processes_first_witness :
    ∃ n, (∀ q ∈ e2C7.process.take n, q.status = .DONE) ∧
         (∀ q ∈ e2C7.process.drop n, q.status ≠ .DONE) :=
  (updateProcess_done_processes_first 5 stepC7 step2C7
    { status := .PENDING, process := [procC7a, procC7b] } e2C7
    .SWAP .DONE none procC7b2 rfl rfl rfl).1

end LiFi

namespace LiFi

/-! ## Claim C9: at most one process per type -/

/-- The sequence of process types on a step (empty when no execution). -/
def processTypes (step : LiFiStep) : List ProcessType :=
  (step.execution.map (fun e => e.process.map Process.type)).getD []

/-- No two processes of a step share a type. -/
def uniqueTypes (step : LiFiStep) : Prop := (processTypes step).Nodup

/-- How many processes of the given type the step holds. -/
def typeCount (step : LiFiStep) (t : ProcessType) : Nat :=
  match step.execution with
  | none => 0
  | some e => (e.process.filter (fun p => p.type == t)).length

/-- One status-engine call: `findOrCreateProcess` or `updateProcess` with
its arguments. -/
inductive StatusOp where
  | findOrCreate (now : Nat) (t : ProcessType) (status : Option Status)
  | update (now : Nat) (t : ProcessType) (status : Status) (params : Option OptionalParameters)

/-- Apply one call to a step; a thrown error leaves the step unchanged
(both operations throw before touching any state). -/
def applyOp (step : LiFiStep) (op : StatusOp) : LiFiStep :=
  match op with
  | .findOrCreate now t s =>
      match findOrCreateProcess now step t s with
      | .ok (st, _) => st
      | .error _ => step
  | .update now t s ps =>
      match updateProcess now step t s ps with
      | .ok (st, _) => st
      | .error _ => step

/-- Apply a sequence of status-engine calls in order. -/
def applyOps (step : LiFiStep) (ops : List StatusOp) : LiFiStep :=
  ops.foldl applyOp step

/-- Lemma: `typeCount` is the multiplicity of `t` in the type sequence. -/
theorem typeCount_eq_count (step : LiFiStep) (t : ProcessType) :
    typeCount step t = (processTypes step).count t := by
  cases h : step.execution with
  | none => simp [typeCount, processTypes, h]
  | some e =>
      simp only [typeCount, processTypes, h, Option.map_some', Option.getD_some]
      rw [← List.countP_eq_length_filter]
      show _ = List.countP (fun x => x == t) (e.process.map Process.type)
      rw [List.countP_map]
      rfl

/-- One status-engine call preserves type uniqueness. -/
theorem applyOp_uniqueTypes (step : LiFiStep) (op : StatusOp) (h : uniqueTypes step) :
    uniqueTypes (applyOp step op) := by
  cases op with
  | findOrCreate now t status =>
      simp only [applyOp]
      cases hexec : step.execution with
      | none => simp only [findOrCreateProcess, hexec]; exact h
      | some e =>
          cases hfind : e.process.find? (fun p => p.type == t) with
          | some p =>
              cases status with
              | none => simp only [findOrCreateProcess, hexec, hfind]; exact h
              | some s =>
                  by_cases hne : p.status = s
                  · simp only [findOrCreateProcess, hexec, hfind, hne, ne_eq,
                      not_true_eq_false, if_false]
                    exact h
                  · simp only [findOrCreateProcess, hexec, hfind, hne, ne_eq,
                      not_false_iff, if_true]
                    unfold uniqueTypes processTypes at h ⊢
                    simp only [hexec, Option.map_some', Option.getD_some] at h ⊢
                    rw [replaceFirst_map_type e.process t
                      (fun q => { q with status := s }) (fun q => rfl)]
                    exact h
          | none =>
              simp only [findOrCreateProcess, hexec, hfind]
              unfold uniqueTypes processTypes at h ⊢
              simp only [hexec, Option.map_some', Option.getD_some] at h ⊢
              rw [List.map_append]
              have hnot : t ∉ e.process.map Process.type := by
                intro hmem
                obtain ⟨q, hq, hqt⟩ := List.mem_map.mp hmem
                have := List.find?_eq_none.mp hfind q hq
                simp [hqt] at this
              exact (List.perm_append_singleton t _).nodup_iff.mpr
                (List.nodup_cons.mpr ⟨hnot, h⟩)
  | update now t s params =>
      simp only [applyOp]
      cases hexec : step.execution with
      | none => simp only [updateProcess, hexec]; exact h
      | some e =>
          cases hfind : e.process.find? (fun p => p.type == t) with
          | none => simp only [updateProcess, hexec, hfind]; exact h
          | some p0 =>
              simp only [updateProcess, hexec, hfind]
              unfold uniqueTypes processTypes at h ⊢
              simp only [hexec, Option.map_some', Option.getD_some] at h ⊢
              have hM : (replaceFirst e.process t (processUpdate now t s params)).map
                  Process.type = e.process.map Process.type :=
                replaceFirst_map_type _ _ _ (fun q => processUpdate_type now t s params q)
              have hperm := (List.filter_append_perm (fun q => q.status == Status.DONE)
                (replaceFirst e.process t (processUpdate now t s params))).map Process.type
              exact hperm.nodup_iff.mpr (hM ▸ h)

/-- A sequence of status-engine calls preserves type uniqueness. -/
theorem applyOps_uniqueTypes (step : LiFiStep) (ops : List StatusOp)
    (h : uniqueTypes step) : uniqueTypes (applyOps step ops) := by
  induction ops generalizing step with
  | nil => exact h
  | cons op rest ih => exact ih (applyOp step op) (applyOp_uniqueTypes step op h)

/-- C9: starting from a step whose process types are pairwise distinct,
after any sequence of `findOrCreateProcess` / `updateProcess` calls the
step's process list contains at most one process of every type. -/
theorem process_type_uniqueness (step : LiFiStep) (ops : List StatusOp)
    (h : uniqueTypes step) : ∀ t, typeCount (applyOps step ops) t ≤ 1 := by
  intro t
  rw [typeCount_eq_count]
  exact List.nodup_iff_count_le_one.mp (applyOps_uniqueTypes step ops h) t

/-- Concrete step for the C9 witness: a freshly initialized execution. -/
def stepC9 : LiFiStep :=
  { id := "step-9", execution := some { status := .PENDING, process := [] } }

/-- Concrete call sequence for the C9 witness: two creations of the same
type around an update. -/
def opsC9 : List StatusOp :=
  [.findOrCreate 1 .SWAP none,
   .update 2 .SWAP .DONE none,
   .findOrCreate 3 .SWAP (some .PENDING),
   .findOrCreate 4 .RECEIVING_CHAIN (some .PENDING)]

/-- Witness for C9 at a concrete step and call sequence. -/
theorem process_type_uniqueness_witness :
    uniqueTypes stepC9 ∧ ∀ t, typeCount (applyOps stepC9 opsC9) t ≤ 1 :=
  ⟨List.nodup_nil, process_type_uniqueness stepC9 opsC9 List.nodup_nil⟩

end LiFi

namespace LiFi

/-! ## Claim C3: disallowed interaction pauses at the checkpoint -/

/-- C3: when the pre-submission checkpoint is reached with user
interaction disallowed, the submission block returns exactly the step as
it stood at the checkpoint — no field of the step, its execution, or its
processes changes afterwards — and performs no submission: a pause, not an
abort. -/
theorem submissionPhase_pauses_without_interaction (now : Nat)
    (atomicBatchSupported isPermitStep permitSupported : Bool)
    (fromChain : ChainInfo) (step stepCk : LiFiStep) (processType : ProcessType)
    (tr : TransactionParameters) (calls : List Call) (oracle : SubmissionOracle)
    (pCk : Process)
    (hck : updateProcess now step processType
      (if permitSupported then .PERMIT_REQUIRED else .ACTION_REQUIRED) none
      = .ok (stepCk, pCk)) :
    submissionPhase now false atomicBatchSupported isPermitStep permitSupported
      fromChain step processType tr calls oracle = .ok (.paused stepCk, []) := by
  unfold submissionPhase
  rw [hck]
  rfl

/-- The C3 witness step: a started cross-chain process. -/
def stepC3 : LiFiStep :=
  { id := "step-3"
    execution := some
      { status := .PENDING
        process := [{ type := .CROSS_CHAIN, status := .STARTED, startedAt := 1,
                      message := "m" }] } }

/-- The C3 witness step as it stands at the checkpoint. -/
def stepCkC3 : LiFiStep :=
  { id := "step-3"
    execution := some
      { status := .ACTION_REQUIRED
        process := [{ type := .CROSS_CHAIN, status := .ACTION_REQUIRED, startedAt := 1,
                      message := getProcessMessage .CROSS_CHAIN .ACTION_REQUIRED }] } }

/-- Concrete oracle for the C3 witness. -/
def oracleC3 : SubmissionOracle :=
  { permitSignature := { data := "0xdata", signature := "0xsig" }
    estimateGasResult := none
    sendCallsHash := "0xbatch"
    sendTransactionHash := "0xhash"
    relayTaskId := "task-1" }

/-- Concrete chain for the C3 witness. -/
def chainC3 : ChainInfo :=
  { id := 1, permit2Proxy := some "0xproxy", blockExplorerUrl := "https://scan/" }

/-- Concrete transaction parameters for the C3 witness. -/
def trC3 : TransactionParameters :=
  { toAddress := some "0xto", data := some "0xcd", value := some 5 }

/-- Witness for C3 at a concrete checkpoint state. -/
theorem submissionPhase_pauses_without_interaction_witness :
    submissionPhase 3 false false false false chainC3 stepC3 .CROSS_CHAIN trC3 [] oracleC3
      = .ok (.paused stepCkC3, []) :=
  submissionPhase_pauses_without_interaction 3 false false false chainC3 stepC3 stepCkC3
    .CROSS_CHAIN trC3 [] oracleC3
    { type := .CROSS_CHAIN, status := .ACTION_REQUIRED, startedAt := 1,
      message := getProcessMessage .CROSS_CHAIN .ACTION_REQUIRED }
    rfl

end LiFi

namespace Permit2

/-! ## Claim C4: the builders and the caller's permit object -/

/-- Concrete permit for the C4 counterexample. -/
def permitC4 : PermitTransferFrom :=
  { permitted := { token := "0xtoken", amount := 5 }
    spender := "0xspender", nonce := 1, deadline := 10 }

/-- Concrete witness extension for the C4 counterexample. -/
def witnessC4 : Witness :=
  { witness := "wv", witnessTypeName := "MyWitness"
    witnessType := [("MyWitness", [{ name := "d", type := "bytes32" }])] }

set_option maxRecDepth 8192 in
/-- C4 (counterexample): called with a witness, `getPermitTransferData`
mutates the caller's permit — `Object.assign(permit, { witness })` adds a
`witness` field — so the permit does not hold the same fields after the
call. -/
theorem getPermitTransferData_mutates_input_cex :
    (getPermitTransferData permitC4 "0xp2" 1 (some witnessC4)).map (fun r => r.2)
      = .ok { permitC4 with witness := some "wv" } ∧
    ({ permitC4 with witness := some "wv" } : PermitTransferFrom) ≠ permitC4 := by
  exact ⟨rfl, by simp [permitC4]⟩

/-- C4 (amended): the builders are deterministic, perform no I/O, and
without a witness leave the caller's permit unchanged; with a witness they
mutate the caller's permit in place, adding the witness payload as a
`witness` field, and the returned `values` object is that same extended
permit. -/
theorem permit_builders_witness_mutation (p : PermitTransferFrom)
    (pb : PermitBatchTransferFrom) (addr : String) (chainId : Nat)
    (w : Witness) :
    (∀ d p2, getPermitTransferData p addr chainId none = .ok (d, p2) →
        p2 = p ∧ d.values = p) ∧
    (∀ d p2, getPermitTransferData p addr chainId (some w) = .ok (d, p2) →
        p2 = { p with witness := some w.witness } ∧ d.values = p2) ∧
    (∀ d p2, getPermitBatchTransferData pb addr chainId none = .ok (d, p2) →
        p2 = pb ∧ d.values = pb) ∧
    (∀ d p2, getPermitBatchTransferData pb addr chainId (some w) = .ok (d, p2) →
        p2 = { pb with witness := some w.witness } ∧ d.values = p2) := by
  refine ⟨?_, ?_, ?_, ?_⟩ <;>
    · intro d p2 h
      simp only [getPermitTransferData, getPermitBatchTransferData, invariant,
        validateTokenPermissions, bind, Except.bind] at h
      repeat' split at h
      all_goals simp_all
      all_goals obtain ⟨hd, hp⟩ := h
      all_goals rw [← hd]
      all_goals exact hp

end Permit2

namespace Permit2

set_option maxRecDepth 8192 in
/-- Witness for the amended C4: at a concrete permit and witness, the
permit after the call carries the added `witness` field. -/
theorem permit_builders_witness_mutation_witness :
    ∃ d p2, getPermitTransferData permitC4 "0xp2" 1 (some witnessC4) = .ok (d, p2) ∧
      p2 = { permitC4 with witness := some "wv" } := by
  refine ⟨_, _, rfl, ?_⟩
  exact ((permit_builders_witness_mutation permitC4
      { permitted := [], spender := "s", nonce := 0, deadline := 0 } "0xp2" 1
      witnessC4).2.1 _ _ rfl).1

end Permit2

namespace Permit2

/-! ## Claim C8: range validation and primary-type selection -/

/-- In-range amounts validate successfully, in order. -/
theorem forM_validate_ok (l : List TokenPermissions)
    (h : ∀ tp ∈ l, tp.amount ≤ MaxSignatureTransferAmount) :
    l.forM validateTokenPermissions = .ok () := by
  induction l with
  | nil => rfl
  | cons a as ih =>
      have ha : validateTokenPermissions a = .ok () := by
        simp [validateTokenPermissions, invariant, h a (List.mem_cons_self a as)]
      show validateTokenPermissions a >>= (fun _ => as.forM validateTokenPermissions) = .ok ()
      rw [ha]
      exact ih (fun tp htp => h tp (List.mem_cons_of_mem a htp))

/-- Any out-of-range amount makes the validation sweep fail with the named
error. -/
theorem forM_validate_error (l : List TokenPermissions)
    (h : ∃ tp ∈ l, MaxSignatureTransferAmount < tp.amount) :
    l.forM validateTokenPermissions = .error "AMOUNT_OUT_OF_RANGE" := by
  induction l with
  | nil => simp at h
  | cons a as ih =>
      by_cases ha : a.amount ≤ MaxSignatureTransferAmount
      · obtain ⟨tp, htp, hv⟩ := h
        rcases List.mem_cons.mp htp with heq | htl
        · subst heq; omega
        · have hok : validateTokenPermissions a = .ok () := by
            simp [validateTokenPermissions, invariant, ha]
          show validateTokenPermissions a >>= (fun _ => as.forM validateTokenPermissions)
            = .error "AMOUNT_OUT_OF_RANGE"
          rw [hok]
          exact ih ⟨tp, htl, hv⟩
      · have herr : validateTokenPermissions a = .error "AMOUNT_OUT_OF_RANGE" := by
          simp [validateTokenPermissions, invariant, ha]
        show validateTokenPermissions a >>= (fun _ => as.forM validateTokenPermissions)
          = .error "AMOUNT_OUT_OF_RANGE"
        rw [herr]
        rfl

/-- Modelled from the spec's words, for comparison with the source: the
primary type the spec says is selected from (single vs. batch, witness
vs. none). -/
def specPrimaryType : PermitInput → Option Witness → String
  | .single _, none => "PermitTransferFrom"
  | .single _, some _ => "PermitWitnessTransferFrom"
  | .batch _, none => "PermitBatchTransferFrom"
  | .batch _, some _ => "PermitBatchWitnessTransferFrom"

/-- C8: an out-of-range deadline, nonce, or permitted amount makes the
permit-data builders (and hence `getPermitData` and `hash`) fail fast with
the named validation error — checked in the order deadline, nonce, amount
— before any signable payload exists; for in-range values `hash` succeeds
and its primary type is selected deterministically from (single vs. batch,
witness vs. none). -/
theorem permit_range_validation_and_primary_type (permit : PermitInput)
    (addr : String) (chainId : Nat) (w : Option Witness) :
    (MaxSigDeadline < permitDeadline permit →
        getPermitData permit addr chainId w = .error "SIG_DEADLINE_OUT_OF_RANGE" ∧
        hash permit addr chainId w = .error "SIG_DEADLINE_OUT_OF_RANGE") ∧
    (permitDeadline permit ≤ MaxSigDeadline →
     MaxUnorderedNonce < permitNonce permit →
        getPermitData permit addr chainId w = .error "NONCE_OUT_OF_RANGE" ∧
        hash permit addr chainId w = .error "NONCE_OUT_OF_RANGE") ∧
    (permitDeadline permit ≤ MaxSigDeadline →
     permitNonce permit ≤ MaxUnorderedNonce →
     (∃ a ∈ permitAmounts permit, MaxSignatureTransferAmount < a) →
        getPermitData permit addr chainId w = .error "AMOUNT_OUT_OF_RANGE" ∧
        hash permit addr chainId w = .error "AMOUNT_OUT_OF_RANGE") ∧
    (permitDeadline permit ≤ MaxSigDeadline →
     permitNonce permit ≤ MaxUnorderedNonce →
     (∀ a ∈ permitAmounts permit, a ≤ MaxSignatureTransferAmount) →
        ∃ r, hash permit addr chainId w = .ok r ∧
          r.1.primaryType = specPrimaryType permit w) := by
  cases permit with
  | single p =>
      refine ⟨?_, ?_, ?_, ?_⟩
      · intro hd
        constructor <;>
          simp [getPermitData, hash, getPermitTransferData, invariant, permitDeadline,
            Bind.bind, Except.bind, show ¬(p.deadline ≤ MaxSigDeadline) by
              simp [permitDeadline] at hd; omega]
      · intro hd hn
        constructor <;>
          simp [getPermitData, hash, getPermitTransferData, invariant, Bind.bind, Except.bind,
            show p.deadline ≤ MaxSigDeadline from hd,
            show ¬(p.nonce ≤ MaxUnorderedNonce) by
              simp [permitNonce] at hn; omega]
      · intro hd hn ha
        have ha2 : ¬(p.permitted.amount ≤ MaxSignatureTransferAmount) := by
          simp only [permitAmounts, List.mem_singleton, exists_eq_left] at ha
          omega
        constructor <;>
          simp [getPermitData, hash, getPermitTransferData, invariant,
            validateTokenPermissions, Bind.bind, Except.bind,
            show p.deadline ≤ MaxSigDeadline from hd,
            show p.nonce ≤ MaxUnorderedNonce from hn, ha2]
      · intro hd hn ha
        have ha2 : p.permitted.amount ≤ MaxSignatureTransferAmount :=
          ha p.permitted.amount (by simp [permitAmounts])
        cases w with
        | none =>
            have hh : hash (.single p) addr chainId none =
                .ok ({ domain := permit2Domain addr chainId
                       types := PERMIT_TRANSFER_FROM_TYPES
                       primaryType := "PermitTransferFrom"
                       message := .single p }, .single p) := by
              simp [hash, getPermitTransferData, invariant, validateTokenPermissions,
                Bind.bind, Except.bind, hashTypedData,
                show p.deadline ≤ MaxSigDeadline from hd,
                show p.nonce ≤ MaxUnorderedNonce from hn, ha2]
            exact ⟨_, hh, rfl⟩
        | some wv =>
            have hh : hash (.single p) addr chainId (some wv) =
                .ok ({ domain := permit2Domain addr chainId
                       types := recordInsert
                         (recordMerge [("TokenPermissions", TOKEN_PERMISSIONS)] wv.witnessType)
                         "PermitWitnessTransferFrom"
                         (transferFields "TokenPermissions" ++
                           [{ name := "witness", type := wv.witnessTypeName }])
                       primaryType := "PermitWitnessTransferFrom"
                       message := .single { p with witness := some wv.witness } },
                     .single { p with witness := some wv.witness }) := by
              simp [hash, getPermitTransferData, invariant, validateTokenPermissions,
                Bind.bind, Except.bind, hashTypedData,
                show p.deadline ≤ MaxSigDeadline from hd,
                show p.nonce ≤ MaxUnorderedNonce from hn, ha2]
            exact ⟨_, hh, rfl⟩
  | batch p =>
      refine ⟨?_, ?_, ?_, ?_⟩
      · intro hd
        constructor <;>
          simp [getPermitData, hash, getPermitBatchTransferData, invariant, permitDeadline,
            Bind.bind, Except.bind, show ¬(p.deadline ≤ MaxSigDeadline) by
              simp [permitDeadline] at hd; omega]
      · intro hd hn
        constructor <;>
          simp [getPermitData, hash, getPermitBatchTransferData, invariant, Bind.bind, Except.bind,
            show p.deadline ≤ MaxSigDeadline from hd,
            show ¬(p.nonce ≤ MaxUnorderedNonce) by
              simp [permitNonce] at hn; omega]
      · intro hd hn ha
        have ha2 : p.permitted.forM validateTokenPermissions
            = .error "AMOUNT_OUT_OF_RANGE" := by
          apply forM_validate_error
          simp only [permitAmounts, List.mem_map] at ha
          obtain ⟨a, ⟨tp, htp, rfl⟩, hv⟩ := ha
          exact ⟨tp, htp, hv⟩
        constructor <;>
          simp [getPermitData, hash, getPermitBatchTransferData, invariant, Bind.bind, Except.bind,
            show p.deadline ≤ MaxSigDeadline from hd,
            show p.nonce ≤ MaxUnorderedNonce from hn, ha2]
      · intro hd hn ha
        have ha2 : p.permitted.forM validateTokenPermissions = .ok () :=
          forM_validate_ok p.permitted
            (fun tp htp => ha tp.amount (by
              simp only [permitAmounts, List.mem_map]
              exact ⟨tp, htp, rfl⟩))
        cases w with
        | none =>
            have hh : hash (.batch p) addr chainId none =
                .ok ({ domain := permit2Domain addr chainId
                       types := PERMIT_BATCH_TRANSFER_FROM_TYPES
                       primaryType := "PermitBatchTransferFrom"
                       message := .batch p }, .batch p) := by
              simp [hash, getPermitBatchTransferData, invariant, Bind.bind,
                Except.bind, hashTypedData,
                show p.deadline ≤ MaxSigDeadline from hd,
                show p.nonce ≤ MaxUnorderedNonce from hn, ha2]
            exact ⟨_, hh, rfl⟩
        | some wv =>
            have hh : hash (.batch p) addr chainId (some wv) =
                .ok ({ domain := permit2Domain addr chainId
                       types := recordInsert
                         (recordInsert (recordMerge [] wv.witnessType)
                           "TokenPermissions" TOKEN_PERMISSIONS)
                         "PermitBatchWitnessTransferFrom"
                         (transferFields "TokenPermissions[]" ++
                           [{ name := "witness", type := wv.witnessTypeName }])
                       primaryType := "PermitBatchWitnessTransferFrom"
                       message := .batch { p with witness := some wv.witness } },
                     .batch { p with witness := some wv.witness }) := by
              simp [hash, getPermitBatchTransferData, invariant, Bind.bind,
                Except.bind, hashTypedData,
                show p.deadline ≤ MaxSigDeadline from hd,
                show p.nonce ≤ MaxUnorderedNonce from hn, ha2]
            exact ⟨_, hh, rfl⟩

end Permit2

namespace Permit2

/-- Out-of-range permit for the C8 witness. -/
def permitC8bad : PermitInput :=
  .single { permitted := { token := "0xt", amount := 1 }
            spender := "0xs", nonce := 0, deadline := 2 ^ 256 }

/-- In-range batch permit for the C8 witness. -/
def permitC8good : PermitInput :=
  .batch { permitted := [{ token := "0xt", amount := 1 }]
           spender := "0xs", nonce := 0, deadline := 1 }

set_option maxRecDepth 8192 in
/-- Witness for C8: a too-large deadline fails with the named error, and
an in-range batch permit hashes with the batch primary type. -/
theorem permit_range_validation_and_primary_type_witness :
    hash permitC8bad "0xp2" 1 none = .error "SIG_DEADLINE_OUT_OF_RANGE" ∧
    (∃ r, hash permitC8good "0xp2" 1 none = .ok r ∧
      r.1.primaryType = specPrimaryType permitC8good none) := by
  constructor
  · exact ((permit_range_validation_and_primary_type permitC8bad "0xp2" 1 none).1
      (by decide)).2
  · exact (permit_range_validation_and_primary_type permitC8good "0xp2" 1 none).2.2.2
      (by decide) (by decide) (by decide)

end Permit2
